import Mathlib

/- A shallow embedding of the Simple-Event-Source client
   (src/helper.ts and src/index.ts). JavaScript strings are modelled as
   lists of characters (`Str`). -/

abbrev Str := List Char

def str (s : String) : Str := s.data

/-- The NUL character that the id-field guard of handleEvent tests for. -/
def NUL : Char := Char.ofNat 0

/-- One pass of chunk.split on the newline alternatives, matching the
JavaScript regex alternation left to right (helper.ts line 2): a CR LF
pair is a single separator, a lone CR or a lone LF is a single separator.
The accumulator holds the current piece reversed. -/
def snAux : Str → Str → List Str
  | [], acc => [acc.reverse]
  | '\r' :: '\n' :: rest, acc => acc.reverse :: snAux rest []
  | '\r' :: rest, acc => acc.reverse :: snAux rest []
  | '\n' :: rest, acc => acc.reverse :: snAux rest []
  | c :: rest, acc => snAux rest (c :: acc)

/-- chunk.split(re) from helper.ts line 7; always a non-empty list. -/
def splitChunk (chunk : Str) : List Str := snAux chunk []

/-- Handling of one chunk inside the read loop of textReaderToLineIterator
(helper.ts lines 5 to 13): the carried last line is glued onto the first
piece when non-empty, the final piece becomes the new carry, and every
other piece is yielded in order. -/
def framerChunk (carry : Str) (chunk : Str) : List Str × Str :=
  let lines := splitChunk chunk
  let glued := if carry ≠ [] then (carry ++ lines.headD []) :: lines.tail else lines
  (glued.dropLast, glued.getLastD [])

/-- The whole generator loop of textReaderToLineIterator. flush is true
when the stream ends cleanly (reader.read resolves with done), in which
case a non-empty carry is yielded as one final line (helper.ts lines 16
and 17); when the read rejects instead, the generator propagates the
rejection and the carry is never yielded. -/
def framerRun (chunks : List Str) (carry : Str) (flush : Bool) : List Str :=
  match chunks with
  | [] => if flush ∧ carry ≠ [] then [carry] else []
  | c :: cs =>
      let p := framerChunk carry c
      p.1 ++ framerRun cs p.2 flush

/-- All lines produced for a given sequence of received chunks. -/
def framerLines (chunks : List Str) (flush : Bool) : List Str :=
  framerRun chunks [] flush

/-- The JavaScript regex whitespace class, restricted to the six ASCII
whitespace characters; the wider Unicode members cannot change any claim
considered here. -/
def isJsWS (c : Char) : Bool :=
  c == ' ' || c == '\t' || c == '\n' || c == '\r' || c == Char.ofNat 11 || c == Char.ofNat 12

/-- line.split on a colon plus at most one whitespace character, with
limit 2 (index.ts line 144). The field is everything before the first
colon; the separator greedily eats one following whitespace character;
the value is the second piece, which stops at the next colon because the
limit discards all later pieces rather than keeping the remainder whole.
A line with no colon yields the whole line as field and, through the
value ??= "" default on line 145, an empty value. -/
def fvAux : Str → Str → Str × Str
  | [], acc => (acc.reverse, [])
  | ':' :: rest, acc =>
      let rest2 := match rest with
        | c :: rs => if isJsWS c then rs else c :: rs
        | [] => []
      (acc.reverse, rest2.takeWhile (fun c => c != ':'))
  | c :: rest, acc => fvAux rest (c :: acc)

def jsSplitFieldValue (line : Str) : Str × Str := fvAux line []

def digitVal (c : Char) : Option Nat :=
  if '0' ≤ c ∧ c ≤ '9' then some (c.toNat - 48) else none

def hexVal (c : Char) : Option Nat :=
  if '0' ≤ c ∧ c ≤ '9' then some (c.toNat - 48)
  else if 'a' ≤ c ∧ c ≤ 'f' then some (c.toNat - 87)
  else if 'A' ≤ c ∧ c ≤ 'F' then some (c.toNat - 55)
  else none

def parseDigitsAux (dv : Char → Option Nat) (base : Nat) : Str → Nat → Nat
  | [], acc => acc
  | c :: rest, acc =>
      match dv c with
      | some d => parseDigitsAux dv base rest (acc * base + d)
      | none => acc

/-- JavaScript parseInt with no radix argument (index.ts line 156): trim
leading whitespace, read one optional sign, switch to hexadecimal after a
0x or 0X prefix, then take the longest leading run of digits; the result
is NaN (here none) when that run is empty, otherwise the signed value of
the run. Characters after the run are ignored. -/
def jsParseInt (v : Str) : Option Int :=
  let t1 := v.dropWhile isJsWS
  let signed : Bool × Str :=
    match t1 with
    | '-' :: r => (true, r)
    | '+' :: r => (false, r)
    | _ => (false, t1)
  let based : (Char → Option Nat) × Nat × Str :=
    match signed.2 with
    | '0' :: 'x' :: r => (hexVal, 16, r)
    | '0' :: 'X' :: r => (hexVal, 16, r)
    | _ => (digitVal, 10, signed.2)
  match based.2.2 with
  | [] => none
  | c :: _ =>
      if (based.1 c).isSome then
        let n := parseDigitsAux based.1 based.2.1 based.2.2 0
        some (if signed.1 then -(n : Int) else (n : Int))
      else none

/-- The EventStreamParseBuffers record of index.ts lines 6 to 10. -/
structure Buffers where
  data : Str
  eventType : Str
  lastEventId : Str
deriving DecidableEq, Repr

/-- The MessageEvent built in dispatch (index.ts lines 180 to 184):
its type, its data and its lastEventId. -/
structure MsgEvent where
  eventType : Str
  data : Str
  lastEventId : Str
deriving DecidableEq, Repr

/-- The parser-visible mutable state of an EventSource: the per-attempt
buffers, the committed private lastEventId field, and the private
reconnectTime field. -/
structure ESState where
  buffers : Buffers
  committedId : Str
  reconnectTime : Int
deriving DecidableEq, Repr

/-- The state right after construction: empty buffers, empty committed
id (index.ts line 30), reconnect time 1000 (defaultRetryTime, line 4). -/
def initES : ESState := ⟨⟨[], [], []⟩, [], 1000⟩

/-- The dispatch method (index.ts lines 171 to 194): first commit the
pending lastEventId to the connection, then, when the accumulated data is
empty, clear only eventType and emit nothing; otherwise strip one
trailing newline from data, build the MessageEvent with the default type
message when eventType is empty, and clear data and eventType. -/
def dispatchStep (s : ESState) : ESState × Option MsgEvent :=
  let s1 : ESState := { s with committedId := s.buffers.lastEventId }
  if s1.buffers.data = [] then
    ({ s1 with buffers := { s1.buffers with eventType := [] } }, none)
  else
    let d := if s1.buffers.data.getLast? = some '\n' then s1.buffers.data.dropLast
             else s1.buffers.data
    let ev : MsgEvent :=
      ⟨(if s1.buffers.eventType = [] then str "message" else s1.buffers.eventType),
       d, s1.buffers.lastEventId⟩
    ({ s1 with buffers := { s1.buffers with data := [], eventType := [] } }, some ev)

/-- The handleEvent method (index.ts lines 137 to 160). An empty line
dispatches; a line starting with a colon is a comment; otherwise the line
is split into field and value, and the four recognised fields mutate the
buffers or the reconnect time. Note that the id branch tests the FIELD
name, not the value, for a NUL character, exactly as written on line
153. -/
def handleEvent (line : Str) (s : ESState) : ESState × Option MsgEvent :=
  if line = [] then dispatchStep s
  else if line.head? = some ':' then (s, none)
  else
    let fv := jsSplitFieldValue line
    let field := fv.1
    let value := fv.2
    if field = str "event" then
      ({ s with buffers := { s.buffers with eventType := value } }, none)
    else if field = str "data" then
      ({ s with buffers := { s.buffers with data := s.buffers.data ++ value ++ ['\n'] } }, none)
    else if field = str "id" then
      ((if field.contains NUL then s
        else { s with buffers := { s.buffers with lastEventId := value } }), none)
    else if field = str "retry" then
      ((match jsParseInt value with
        | some n => { s with reconnectTime := n }
        | none => s), none)
    else (s, none)

/-- The for-await loop of startFetch feeding each framed line to
handleEvent, collecting the events that get scheduled for dispatch. -/
def processLines (lines : List Str) (s : ESState) : ESState × List MsgEvent :=
  match lines with
  | [] => (s, [])
  | l :: rest =>
      let r1 := handleEvent l s
      let r2 := processLines rest r1.1
      (r2.1, r1.2.toList ++ r2.2)

/-- The readyState values of index.ts lines 20 to 24. -/
inductive ReadyState
  | connecting
  | opened
  | closed
deriving DecidableEq, Repr

/-- The payloads carried by error events: the InvalidEventSourceResponseError
built on index.ts line 104 (remembering the response status), or a network
TypeError. A null payload is modelled as none at the use sites. -/
inductive ErrKind
  | invalidResponse (status : Nat)
  | network
deriving DecidableEq, Repr

/-- One observable emission through dispatchEvent. -/
inductive Obs
  | openEvt
  | message (ev : MsgEvent)
  | errorEvt (e : Option ErrKind)
deriving DecidableEq, Repr

/-- The callbacks the class schedules: the setTimeout body of announce
(lines 163 to 169), the setTimeout body of dispatch (lines 187 to 190),
the setTimeout body of fail (lines 196 to 206), the errorTask and the
final connect microtask of reconnect (lines 208 to 224). -/
inductive SchedTask
  | announceTask
  | dispatchTask (ev : MsgEvent)
  | failTask (e : Option ErrKind)
  | reconnectErrorTask
  | reconnectConnectTask
deriving DecidableEq, Repr

/-- The connection-level observable state: the readyState field, the list
of events dispatched so far, the number of connect attempts issued after
the first one, and whether the abort controller has been aborted. -/
structure MachineState where
  ready : ReadyState
  log : List Obs
  connects : Nat
  aborted : Bool
deriving DecidableEq, Repr

/-- The state right after the constructor ran: CONNECTING (line 68). -/
def initMS : MachineState := ⟨ReadyState.connecting, [], 0, false⟩

/-- Running one scheduled callback, with the state guard each one performs
at fire time, exactly as in the source: announce fires open unless CLOSED
and moves to OPEN; the dispatch timeout fires the message unless CLOSED;
the fail timeout moves to CONNECTING and fires the error unless CLOSED;
the reconnect errorTask does the same carrying the network error; the
final reconnect step calls connect only when the state is still
CONNECTING. -/
def runTask (s : MachineState) : SchedTask → MachineState
  | SchedTask.announceTask =>
      if s.ready = ReadyState.closed then s
      else { s with ready := ReadyState.opened, log := s.log ++ [Obs.openEvt] }
  | SchedTask.dispatchTask ev =>
      if s.ready = ReadyState.closed then s
      else { s with log := s.log ++ [Obs.message ev] }
  | SchedTask.failTask e =>
      if s.ready = ReadyState.closed then s
      else { s with ready := ReadyState.connecting, log := s.log ++ [Obs.errorEvt e] }
  | SchedTask.reconnectErrorTask =>
      if s.ready = ReadyState.closed then s
      else { s with ready := ReadyState.connecting,
                    log := s.log ++ [Obs.errorEvt (some ErrKind.network)] }
  | SchedTask.reconnectConnectTask =>
      if s.ready ≠ ReadyState.connecting then s
      else { s with connects := s.connects + 1 }

/-- Running a list of scheduled callbacks in order. -/
def runTasks (s : MachineState) (ts : List SchedTask) : MachineState :=
  ts.foldl runTask s

/-- The close method (index.ts lines 238 to 241): set readyState to
CLOSED and abort the in-flight transport operation. -/
def close (s : MachineState) : MachineState :=
  { s with ready := ReadyState.closed, aborted := true }

/-- How the current response attempt can end: the body stream is
exhausted cleanly, the fetch or a body read rejects with a network
TypeError, or it rejects with an AbortError DOMException. -/
inductive BodyEnd
  | clean
  | netError
  | abortError
deriving DecidableEq, Repr

/-- The callbacks scheduled when the attempt ends (index.ts lines 115 to
133): a clean loop exit schedules nothing at all, a network TypeError
runs reconnect which schedules its error task and then its guarded
connect step, and an abort schedules fail with a null error. -/
def endTasks : BodyEnd → List SchedTask
  | BodyEnd.clean => []
  | BodyEnd.netError => [SchedTask.reconnectErrorTask, SchedTask.reconnectConnectTask]
  | BodyEnd.abortError => [SchedTask.failTask none]

/-- The content-type test of index.ts line 99: absent content-type fails
the optional chaining, otherwise the header must start with
text/event-stream. -/
def validCT : Option Str → Bool
  | none => false
  | some ct => (str "text/event-stream").isPrefixOf ct

/-- The invalid-response condition of index.ts line 99. -/
def isInvalidResponse (status : Nat) (ct : Option Str) : Bool :=
  !(status == 200) || !(validCT ct)

/-- The result of one startFetch run: whether the body was read, the
parser state left behind, and the callbacks scheduled, in order. -/
structure FetchOutcome where
  readBody : Bool
  finalParser : ESState
  tasks : List SchedTask
deriving DecidableEq, Repr

/-- The startFetch method (index.ts lines 96 to 135) for one response,
given the received body chunks and the way the attempt ended. An invalid
response builds the InvalidEventSourceResponseError and only calls fail,
without reading the body; a valid one schedules announce, feeds the
framed lines through handleEvent collecting the dispatch timeouts, and
finally schedules whatever the ending requires. The framer only flushes
its carried line when the stream ended cleanly. -/
def startFetchModel (status : Nat) (ct : Option Str) (chunks : List Str)
    (ending : BodyEnd) (ps : ESState) : FetchOutcome :=
  if isInvalidResponse status ct then
    ⟨false, ps, [SchedTask.failTask (some (ErrKind.invalidResponse status))]⟩
  else
    let lines := framerLines chunks (ending = BodyEnd.clean)
    let r := processLines lines ps
    ⟨true, r.1, SchedTask.announceTask :: r.2.map SchedTask.dispatchTask ++ endTasks ending⟩

/-- The listener bookkeeping behind one convenience onX property: the
EventTarget listener list for that event type (handlers named by
numbers, added at the end unless already present, as addEventListener
deduplicates) together with the private backing field such as onopen. -/
structure HandlerState where
  listeners : List Nat
  current : Option Nat
deriving DecidableEq, Repr

/-- addEventListener for one type: append unless already registered. -/
def addListener (l : List Nat) (h : Nat) : List Nat :=
  if h ∈ l then l else l ++ [h]

/-- removeEventListener for one type: remove the matching listener; a
null callback matches nothing. -/
def removeListener (l : List Nat) : Option Nat → List Nat
  | none => l
  | some h => l.erase h

/-- One onX property setter (index.ts lines 256 to 260 and its three
copies): a truthy new value is only added, the previous handler is only
removed when the new value is null, and the backing field is updated. -/
def setHandler (s : HandlerState) (v : Option Nat) : HandlerState :=
  match v with
  | some h => ⟨addListener s.listeners h, some h⟩
  | none => ⟨removeListener s.listeners s.current, none⟩

/-- Classification of one line as seen by the retry branch of
handleEvent: the parsed integer when the line is a non-comment retry
field line whose value parseInt accepts, and none otherwise. -/
def retryOfLine (l : Str) : Option Int :=
  if l = [] then none
  else if l.head? = some ':' then none
  else if (jsSplitFieldValue l).1 = str "retry" then jsParseInt (jsSplitFieldValue l).2
  else none

/-- The last retry update carried by a sequence of lines, if any. -/
def lastRetry : List Str → Option Int
  | [] => none
  | l :: rest =>
      match lastRetry rest with
      | some n => some n
      | none => retryOfLine l

/-- A list of strings joined by single newlines, with no trailing
newline. -/
def joinNL : List Str → Str
  | [] => []
  | [v] => v
  | v :: vs => v ++ '\n' :: joinNL vs

theorem runTask_closed (m : MachineState) (t : SchedTask)
    (h : m.ready = ReadyState.closed) : runTask m t = m := by
  cases t <;> simp [runTask, h]

theorem runTasks_closed (m : MachineState) (ts : List SchedTask)
    (h : m.ready = ReadyState.closed) : runTasks m ts = m := by
  induction ts with
  | nil => rfl
  | cons t ts ih =>
      show runTasks (runTask m t) ts = m
      rw [runTask_closed m t h]
      exact ih

theorem runTasks_dispatch_pres (evs : List MsgEvent) (m : MachineState) :
    (runTasks m (evs.map SchedTask.dispatchTask)).ready = m.ready ∧
    (runTasks m (evs.map SchedTask.dispatchTask)).connects = m.connects := by
  induction evs generalizing m with
  | nil => exact ⟨rfl, rfl⟩
  | cons e es ih =>
      have h := ih (runTask m (SchedTask.dispatchTask e))
      have hr : (runTask m (SchedTask.dispatchTask e)).ready = m.ready := by
        by_cases hc : m.ready = ReadyState.closed <;> simp [runTask, hc]
      have hn : (runTask m (SchedTask.dispatchTask e)).connects = m.connects := by
        by_cases hc : m.ready = ReadyState.closed <;> simp [runTask, hc]
      exact ⟨h.1.trans hr, h.2.trans hn⟩

/-- C8: close sets readyState to CLOSED immediately and aborts the
in-flight transport operation, and CLOSED is terminal: however the state
was reached and whatever callbacks are still pending, running them
dispatches no further open, message or error event, performs no further
connect attempt, and leaves the state CLOSED, because every scheduled
callback checks the state and no-ops once it is CLOSED. -/
theorem close_terminal (s : MachineState) (ts : List SchedTask) :
    (close s).ready = ReadyState.closed ∧
    (close s).aborted = true ∧
    runTasks (close s) ts = close s ∧
    (runTasks (close s) ts).log = s.log ∧
    (runTasks (close s) ts).connects = s.connects := by
  have h : runTasks (close s) ts = close s := runTasks_closed (close s) ts rfl
  exact ⟨rfl, rfl, h, by rw [h]; rfl, by rw [h]; rfl⟩

/-- C1 (amended): on a response with status other than 200 or a
content-type not starting with text/event-stream, the body is never read,
the parser state is untouched, the only scheduled callback is the fail
timeout carrying the invalid-response error, and running it never reaches
OPEN, never issues a connect attempt, moves the state to CONNECTING
unless it is already CLOSED, and emits exactly the invalid-response error
event unless the state is CLOSED. No reconnect is ever scheduled for an
invalid response. -/
theorem invalid_response_behavior (status : Nat) (ct : Option Str)
    (chunks : List Str) (ending : BodyEnd) (ps : ESState) (ms : MachineState)
    (h : isInvalidResponse status ct = true) :
    (startFetchModel status ct chunks ending ps).readBody = false ∧
    (startFetchModel status ct chunks ending ps).finalParser = ps ∧
    (startFetchModel status ct chunks ending ps).tasks
      = [SchedTask.failTask (some (ErrKind.invalidResponse status))] ∧
    (runTasks ms (startFetchModel status ct chunks ending ps).tasks).connects = ms.connects ∧
    (runTasks ms (startFetchModel status ct chunks ending ps).tasks).ready
      = (if ms.ready = ReadyState.closed then ReadyState.closed else ReadyState.connecting) ∧
    (runTasks ms (startFetchModel status ct chunks ending ps).tasks).log
      = ms.log ++ (if ms.ready = ReadyState.closed then []
                   else [Obs.errorEvt (some (ErrKind.invalidResponse status))]) := by
  have hm : startFetchModel status ct chunks ending ps
      = ⟨false, ps, [SchedTask.failTask (some (ErrKind.invalidResponse status))]⟩ := by
    simp [startFetchModel, h]
  refine ⟨by rw [hm], by rw [hm], by rw [hm], ?_, ?_, ?_⟩ <;> rw [hm] <;>
    by_cases hc : ms.ready = ReadyState.closed <;>
    simp [runTasks, runTask, hc]

/-- C1 counterexample: a 404 response, processed from the freshly
constructed state, schedules only the fail timeout; after every scheduled
callback has run, the state is CONNECTING (not CLOSED) and yet not one
connect attempt has been issued, against the claim that a reconnect
attempt is made. -/
theorem invalid_response_no_reconnect_cex :
    (startFetchModel 404 none [] BodyEnd.clean initES).tasks
      = [SchedTask.failTask (some (ErrKind.invalidResponse 404))] ∧
    (runTasks initMS (startFetchModel 404 none [] BodyEnd.clean initES).tasks).ready
      = ReadyState.connecting ∧
    (runTasks initMS (startFetchModel 404 none [] BodyEnd.clean initES).tasks).connects = 0 := by
  decide

/-- C1 witness: the amended theorem applied to a concrete 404 response. -/
theorem invalid_response_behavior_witness :
    isInvalidResponse 404 none = true ∧
    (runTasks initMS (startFetchModel 404 none [] BodyEnd.clean initES).tasks).ready
      = ReadyState.connecting := by
  have h := invalid_response_behavior 404 none [] BodyEnd.clean initES initMS (by decide)
  exact ⟨by decide, by rw [h.2.2.2.2.1]; decide⟩

/-- C4 (amended): when the response is valid and the body ends normally
(the stream is exhausted without an error), the ending schedules no
callback at all: no error is emitted for it, no reconnect is scheduled,
and after every scheduled callback of the attempt has run the connection
is left in OPEN with the connect-attempt count unchanged, silently
stopped, instead of reconnecting as after a network failure. -/
theorem clean_end_silent (status : Nat) (ct : Option Str) (chunks : List Str)
    (ps : ESState) (ms : MachineState)
    (hv : isInvalidResponse status ct = false) (hr : ms.ready ≠ ReadyState.closed) :
    endTasks BodyEnd.clean = [] ∧
    (runTasks ms (startFetchModel status ct chunks BodyEnd.clean ps).tasks).connects
      = ms.connects ∧
    (runTasks ms (startFetchModel status ct chunks BodyEnd.clean ps).tasks).ready
      = ReadyState.opened := by
  have hm : (startFetchModel status ct chunks BodyEnd.clean ps).tasks
      = SchedTask.announceTask ::
        ((processLines (framerLines chunks true) ps).2.map SchedTask.dispatchTask) := by
    simp [startFetchModel, hv, endTasks]
  have ha : runTask ms SchedTask.announceTask
      = { ms with ready := ReadyState.opened, log := ms.log ++ [Obs.openEvt] } := by
    simp [runTask, hr]
  have hstep : runTasks ms (SchedTask.announceTask ::
        ((processLines (framerLines chunks true) ps).2.map SchedTask.dispatchTask))
      = runTasks (runTask ms SchedTask.announceTask)
          ((processLines (framerLines chunks true) ps).2.map SchedTask.dispatchTask) := rfl
  have hpres := runTasks_dispatch_pres (processLines (framerLines chunks true) ps).2
      (runTask ms SchedTask.announceTask)
  refine ⟨rfl, ?_, ?_⟩
  · rw [hm, hstep, hpres.2, ha]
  · rw [hm, hstep, hpres.1, ha]

/-- C4 counterexample: a valid response whose body carries one complete
event and then ends cleanly leaves the connection OPEN with zero connect
attempts after all callbacks have run, while the same body ended by a
network error leads to one connect attempt: normal exhaustion is not
treated like a network failure. -/
theorem clean_end_vs_network_cex :
    (runTasks initMS (startFetchModel 200 (some (str "text/event-stream"))
        [str "data: x\n\n"] BodyEnd.clean initES).tasks).connects = 0 ∧
    (runTasks initMS (startFetchModel 200 (some (str "text/event-stream"))
        [str "data: x\n\n"] BodyEnd.clean initES).tasks).ready = ReadyState.opened ∧
    (runTasks initMS (startFetchModel 200 (some (str "text/event-stream"))
        [str "data: x\n\n"] BodyEnd.netError initES).tasks).connects = 1 := by
  decide

/-- C4 witness: the amended theorem applied to a concrete valid response
with a cleanly ending body. -/
theorem clean_end_silent_witness :
    isInvalidResponse 200 (some (str "text/event-stream")) = false ∧
    initMS.ready ≠ ReadyState.closed ∧
    (runTasks initMS (startFetchModel 200 (some (str "text/event-stream"))
        [str "data: x\n\n"] BodyEnd.clean initES).tasks).ready = ReadyState.opened :=
  ⟨by decide, by decide,
   (clean_end_silent 200 (some (str "text/event-stream")) [str "data: x\n\n"]
      initES initMS (by decide) (by decide)).2.2⟩

/-- C2: the Line Framer is not chunk-boundary independent. The text
a CR LF b, delivered as the two chunks "a\r" and "\nb", yields the three
lines a, empty, b, while the same text delivered in one chunk yields the
two lines a and b: a CR LF delimiter split exactly at a chunk boundary
produces a spurious extra empty line, because each chunk is split on its
own and the lone CR at the end of the first chunk already terminates a
line. -/
theorem framer_chunk_boundary_dependent :
    framerLines [str "a\r", str "\nb"] true = [str "a", [], str "b"] ∧
    framerLines [str "a\r\nb"] true = [str "a", str "b"] ∧
    ¬ framerLines [str "a\r", str "\nb"] true = framerLines [str "a\r\nb"] true := by
  decide

/-- C3: the field split truncates values at a second colon instead of
keeping the remainder of the line whole. On the line data colon a colon b
the parsed value is just a, because split with limit 2 discards every
piece after the second separator, so the accumulated data buffer receives
a, not a colon b. -/
theorem colon_value_truncated :
    jsSplitFieldValue (str "data: a:b") = (str "data", str "a") ∧
    (handleEvent (str "data: a:b") initES).1.buffers.data = str "a\n" := by
  decide

/-- C5: an id value containing a NUL character is NOT dropped: the code
tests the field name, which is the literal id and never contains NUL, so
the pending lastEventId is unconditionally set to the NUL-containing
value. -/
theorem id_nul_value_not_dropped :
    (handleEvent (str "id: x" ++ NUL :: str "y") initES).1.buffers.lastEventId
      = str "x" ++ NUL :: str "y" := by
  decide

/-- C6: assigning a second non-null convenience handler does not
unregister the first: after setting handler 1 and then handler 2, both
remain registered, because the setter only removes the previous handler
when the new value is null. -/
theorem onx_setter_accumulates :
    (setHandler (setHandler ⟨[], none⟩ (some 1)) (some 2)).listeners = [1, 2] ∧
    (setHandler (setHandler ⟨[], none⟩ (some 1)) (some 2)).current = some 2 := by
  decide

theorem dispatchStep_reconnectTime (s : ESState) :
    (dispatchStep s).1.reconnectTime = s.reconnectTime := by
  unfold dispatchStep
  by_cases h : s.buffers.data = [] <;> simp [h]

theorem handleEvent_reconnectTime (l : Str) (s : ESState) :
    (handleEvent l s).1.reconnectTime = (retryOfLine l).getD s.reconnectTime := by
  by_cases h0 : l = []
  · simp [handleEvent, retryOfLine, h0, dispatchStep_reconnectTime]
  · by_cases h1 : l.head? = some ':'
    · simp [handleEvent, retryOfLine, h0, h1]
    · by_cases he : (jsSplitFieldValue l).1 = str "event"
      · have hne : ¬ (jsSplitFieldValue l).1 = str "retry" := by
          rw [he]; decide
        have hr : retryOfLine l = none := by simp [retryOfLine, h0, h1, hne]
        rw [hr]
        simp [handleEvent, h0, h1, he]
      · by_cases hd : (jsSplitFieldValue l).1 = str "data"
        · have hne : ¬ (jsSplitFieldValue l).1 = str "retry" := by
            rw [hd]; decide
          have hr : retryOfLine l = none := by simp [retryOfLine, h0, h1, hne]
          have d1 : (str "data" = str "event") = False := by decide
          rw [hr]
          simp [handleEvent, h0, h1, hd, d1]
        · by_cases hi : (jsSplitFieldValue l).1 = str "id"
          · have hne : ¬ (jsSplitFieldValue l).1 = str "retry" := by
              rw [hi]; decide
            have hr : retryOfLine l = none := by simp [retryOfLine, h0, h1, hne]
            have d1 : (str "id" = str "event") = False := by decide
            have d2 : (str "id" = str "data") = False := by decide
            have d3 : (NUL ∈ str "id") = False := by decide
            rw [hr]
            simp [handleEvent, h0, h1, hi, d1, d2, d3]
          · by_cases hrt : (jsSplitFieldValue l).1 = str "retry"
            · have hr : retryOfLine l = jsParseInt (jsSplitFieldValue l).2 := by
                simp [retryOfLine, h0, h1, hrt]
              have d1 : (str "retry" = str "event") = False := by decide
              have d2 : (str "retry" = str "data") = False := by decide
              have d3 : (str "retry" = str "id") = False := by decide
              rw [hr]
              cases hp : jsParseInt (jsSplitFieldValue l).2 <;>
                simp [handleEvent, h0, h1, hrt, hp, d1, d2, d3]
            · have hr : retryOfLine l = none := by simp [retryOfLine, h0, h1, hrt]
              rw [hr]
              simp [handleEvent, h0, h1, he, hd, hi, hrt]

theorem processLines_reconnectTime (lines : List Str) (s : ESState) :
    (processLines lines s).1.reconnectTime = (lastRetry lines).getD s.reconnectTime := by
  induction lines generalizing s with
  | nil => rfl
  | cons l rest ih =>
      show (processLines rest (handleEvent l s).1).1.reconnectTime = _
      rw [ih, handleEvent_reconnectTime]
      have hl : lastRetry (l :: rest)
          = match lastRetry rest with
            | some n => some n
            | none => retryOfLine l := rfl
      cases h : lastRetry rest <;> simp [hl, h]

/-- C7 (amended): the reconnect time starts at 1000 and, over any
sequence of lines fed to handleEvent from any state, ends at the value of
the last retry line whose value parseInt accepts (taking the leading
integer of the value, which may be negative, so the field is an integer
but not necessarily nonnegative), and is left at its previous value when
no such line occurs; in particular non-parsing retry values are ignored
and nothing ever resets it to the default. -/
theorem reconnectTime_evolution :
    initES.reconnectTime = 1000 ∧
    ∀ (lines : List Str) (s : ESState),
      (processLines lines s).1.reconnectTime = (lastRetry lines).getD s.reconnectTime :=
  ⟨rfl, processLines_reconnectTime⟩

/-- C7 counterexample: the line retry colon minus five drives the
reconnect time to the negative value minus five, so the claimed invariant
that reconnectDelayMillis is at least zero in every reachable state is
false. -/
theorem retry_negative_cex :
    (processLines [str "retry: -5"] initES).1.reconnectTime = -5 ∧
    (processLines [str "retry: -5"] initES).1.reconnectTime < 0 := by
  decide

theorem handleEvent_committedId (l : Str) (s : ESState) (h : ¬ l = []) :
    (handleEvent l s).1.committedId = s.committedId := by
  by_cases h1 : l.head? = some ':'
  · simp [handleEvent, h, h1]
  · by_cases he : (jsSplitFieldValue l).1 = str "event"
    · simp [handleEvent, h, h1, he]
    · by_cases hd : (jsSplitFieldValue l).1 = str "data"
      · have d1 : (str "data" = str "event") = False := by decide
        simp [handleEvent, h, h1, hd, d1]
      · by_cases hi : (jsSplitFieldValue l).1 = str "id"
        · have d3 : (NUL ∈ str "id") = False := by decide
          have d1 : (str "id" = str "event") = False := by decide
          have d2 : (str "id" = str "data") = False := by decide
          simp [handleEvent, h, h1, hi, d1, d2, d3]
        · by_cases hrt : (jsSplitFieldValue l).1 = str "retry"
          · have d1 : (str "retry" = str "event") = False := by decide
            have d2 : (str "retry" = str "data") = False := by decide
            have d3 : (str "retry" = str "id") = False := by decide
            cases hp : jsParseInt (jsSplitFieldValue l).2 <;>
              simp [handleEvent, h, h1, hrt, hp, d1, d2, d3]
          · simp [handleEvent, h, h1, he, hd, hi, hrt]

/-- C10: over any sequence of lines none of which is blank (so no event
is ever completed and dispatched), the committed lastEventId of the
connection is left exactly as it was, whatever id lines occur in the
sequence: the committed id only changes inside dispatch, which only runs
on a blank line, never directly from an id line; hence an attempt that
fails before its terminating blank line commits nothing. -/
theorem no_blank_no_commit (lines : List Str) (s : ESState)
    (h : ∀ l ∈ lines, ¬ l = []) :
    (processLines lines s).1.committedId = s.committedId := by
  induction lines generalizing s with
  | nil => rfl
  | cons l rest ih =>
      show (processLines rest (handleEvent l s).1).1.committedId = s.committedId
      rw [ih ((handleEvent l s).1) (fun x hx => h x (List.mem_cons_of_mem _ hx))]
      exact handleEvent_committedId l s (h l (List.mem_cons_self _ _))

/-- C10 witness: an id line followed by a data line and then a dropped
connection (no blank line ever processed) leaves the committed id at its
initial empty value. -/
theorem no_blank_no_commit_witness :
    (∀ l ∈ [str "id: 42", str "data: x"], ¬ l = []) ∧
    (processLines [str "id: 42", str "data: x"] initES).1.committedId = initES.committedId :=
  ⟨by decide, no_blank_no_commit [str "id: 42", str "data: x"] initES (by decide)⟩

theorem processLines_append (xs ys : List Str) (s : ESState) :
    processLines (xs ++ ys) s
      = ((processLines ys (processLines xs s).1).1,
         (processLines xs s).2 ++ (processLines ys (processLines xs s).1).2) := by
  induction xs generalizing s with
  | nil => simp [processLines]
  | cons x xs ih =>
      have h1 : processLines ((x :: xs) ++ ys) s
          = ((processLines (xs ++ ys) (handleEvent x s).1).1,
             (handleEvent x s).2.toList ++ (processLines (xs ++ ys) (handleEvent x s).1).2) := rfl
      have h2 : processLines (x :: xs) s
          = ((processLines xs (handleEvent x s).1).1,
             (handleEvent x s).2.toList ++ (processLines xs (handleEvent x s).1).2) := rfl
      rw [h1, h2, ih]
      simp [List.append_assoc]

theorem processLines_data_acc (lines : List Str) (s : ESState)
    (h : ∀ l ∈ lines, ¬ l = [] ∧ ¬ l.head? = some ':' ∧ (jsSplitFieldValue l).1 = str "data") :
    processLines lines s
      = ({ s with buffers := { s.buffers with
            data := s.buffers.data
              ++ (lines.map (fun l => (jsSplitFieldValue l).2 ++ ['\n'])).flatten } }, []) := by
  induction lines generalizing s with
  | nil =>
      cases s with
      | mk b c r => cases b with
        | mk d e i => simp [processLines]
  | cons l rest ih =>
      obtain ⟨h1, h2, h3⟩ := h l (List.mem_cons_self _ _)
      have hhe : handleEvent l s
          = ({ s with buffers := { s.buffers with
                data := s.buffers.data ++ ((jsSplitFieldValue l).2 ++ ['\n']) } }, none) := by
        have d1 : (str "data" = str "event") = False := by decide
        simp [handleEvent, h1, h2, h3, d1]
      have hunf : processLines (l :: rest) s
          = ((processLines rest (handleEvent l s).1).1,
             (handleEvent l s).2.toList ++ (processLines rest (handleEvent l s).1).2) := rfl
      rw [hunf, hhe]
      rw [ih _ (fun x hx => h x (List.mem_cons_of_mem _ hx))]
      simp [List.append_assoc]

theorem joinNL_concat (vs : List Str) (h : ¬ vs = []) :
    (vs.map (fun v => v ++ ['\n'])).flatten = joinNL vs ++ ['\n'] := by
  induction vs with
  | nil => exact absurd rfl h
  | cons v vs ih =>
      cases vs with
      | nil => simp [joinNL]
      | cons w ws =>
          have hh := ih (by simp)
          have hj : joinNL (v :: w :: ws) = v ++ '\n' :: joinNL (w :: ws) := rfl
          have hu : ((v :: w :: ws).map (fun v => v ++ ['\n'])).flatten
              = (v ++ ['\n']) ++ ((w :: ws).map (fun v => v ++ ['\n'])).flatten := by
            simp
          rw [hj, hu, hh]
          simp [List.append_assoc]

/-- C9: a blank line dispatches exactly one event if and only if the
accumulated data buffer is non-empty at that moment; when the data buffer
is empty the blank line emits nothing and, on the pending buffers, only
resets eventType (committing the pending id to the connection as dispatch
always does); and, from a state with empty data, a run of data lines
followed by a blank line yields exactly one event whose data is the
parsed values of those data lines joined by newlines with the single
trailing newline removed. -/
theorem blank_line_dispatch :
    (∀ s : ESState,
        ((handleEvent [] s).2.isSome ↔ ¬ s.buffers.data = []) ∧
        (s.buffers.data = [] →
          handleEvent [] s
            = ({ s with buffers := { s.buffers with eventType := [] },
                        committedId := s.buffers.lastEventId }, none))) ∧
    (∀ (s : ESState) (lines : List Str),
        s.buffers.data = [] → ¬ lines = [] →
        (∀ l ∈ lines, ¬ l = [] ∧ ¬ l.head? = some ':' ∧ (jsSplitFieldValue l).1 = str "data") →
        (processLines (lines ++ [[]]) s).2
          = [⟨(if s.buffers.eventType = [] then str "message" else s.buffers.eventType),
              joinNL (lines.map (fun l => (jsSplitFieldValue l).2)),
              s.buffers.lastEventId⟩]) := by
  constructor
  · intro s
    constructor
    · by_cases hd : s.buffers.data = [] <;> simp [handleEvent, dispatchStep, hd]
    · intro hd
      simp [handleEvent, dispatchStep, hd]
  · intro s lines hempty hne hcond
    have hacc := processLines_data_acc lines s hcond
    have hvals : lines.map (fun l => (jsSplitFieldValue l).2 ++ ['\n'])
        = (lines.map (fun l => (jsSplitFieldValue l).2)).map (fun v => v ++ ['\n']) := by
      simp [List.map_map, Function.comp]
    have hvne : ¬ (lines.map (fun l => (jsSplitFieldValue l).2)) = [] := by
      intro hv
      exact hne (List.map_eq_nil_iff.mp hv)
    have hjoin := joinNL_concat (lines.map (fun l => (jsSplitFieldValue l).2)) hvne
    have hdata : s.buffers.data
          ++ (lines.map (fun l => (jsSplitFieldValue l).2 ++ ['\n'])).flatten
        = joinNL (lines.map (fun l => (jsSplitFieldValue l).2)) ++ ['\n'] := by
      rw [hempty, hvals, hjoin]
      simp
    rw [hdata] at hacc
    have happ := processLines_append lines [[]] s
    rw [hacc] at happ
    have hdisp : (processLines [[]]
        ({ s with buffers := { s.buffers with
            data := joinNL (lines.map (fun l => (jsSplitFieldValue l).2)) ++ ['\n'] } })).2
        = [⟨(if s.buffers.eventType = [] then str "message" else s.buffers.eventType),
            joinNL (lines.map (fun l => (jsSplitFieldValue l).2)),
            s.buffers.lastEventId⟩] := by
      simp [processLines, handleEvent, dispatchStep, List.getLast?_concat, List.dropLast_concat]
    rw [happ]
    simpa using hdisp

/-- C9 witness: the stream data colon A, data colon B, blank line yields
exactly one event whose data is A newline B. -/
theorem blank_line_dispatch_witness :
    initES.buffers.data = [] ∧
    (processLines ([str "data: A", str "data: B"] ++ [[]]) initES).2
      = [⟨str "message", str "A" ++ '\n' :: str "B", []⟩] := by
  have h := blank_line_dispatch.2 initES [str "data: A", str "data: B"] rfl (by decide) (by decide)
  refine ⟨rfl, ?_⟩
  rw [h]
  decide
